import Mathlib

/-!
Verification of the DJI thermal-orthomosaic batch-processing tools.

This file gives a shallow embedding, in Lean, of the pure logic of the
repository's Python sources (`add_timestamp.py`, `extract_metadata.py`,
`copy_metadata.py`, `jpg2tiff.py`) and proves or refutes the stated
properties of that logic.  File-system effects are modelled by explicit
state passing (a list of existing paths), external collaborators (the DJI
SDK raw unpacker, the EXIF/XMP codecs) are modelled by their outcomes
passed in as data, and Python floats are modelled by rationals.
-/

/-- A file path's final component, split as `pathlib` does: `stem` is the
name without the final extension, `suffix` is the extension including the
leading dot (empty when there is none).  The full file name (`Path.name`
in Python) is `stem ++ suffix`. -/
structure ImagePath where
  stem : String
  suffix : String
deriving DecidableEq, Repr

/-- The full file name of an `ImagePath`, i.e. Python's `Path.name`. -/
def ImagePath.fileName (p : ImagePath) : String :=
  p.stem ++ p.suffix

/-! ## Splitting and joining on underscores

`add_timestamp.py` manipulates filename stems with `str.split('_')` and
`'_'.join(...)`.  Both are modelled here at the character-list level so
that they are executable and provable. -/

/-- Worker for `splitUnderscore`: `acc` holds the characters of the current
segment in reverse. -/
def splitUnderscoreAux : List Char → List Char → List (List Char)
  | [], acc => [acc.reverse]
  | c :: rest, acc =>
    if c = '_' then acc.reverse :: splitUnderscoreAux rest []
    else splitUnderscoreAux rest (c :: acc)

/-- Python's `s.split('_')`: split on every underscore, keeping empty
segments. -/
def splitUnderscore (s : String) : List String :=
  (splitUnderscoreAux s.data []).map String.mk

/-- Python's `'_'.join(parts)`. -/
def joinUnderscore : List String → String
  | [] => ""
  | [a] => a
  | a :: b :: rest => a ++ "_" ++ joinUnderscore (b :: rest)

theorem splitUnderscoreAux_ne_nil (l acc : List Char) :
    splitUnderscoreAux l acc ≠ [] := by
  induction l generalizing acc with
  | nil => simp [splitUnderscoreAux]
  | cons c rest ih =>
    by_cases h : c = '_' <;> simp [splitUnderscoreAux, h, ih]

theorem joinUnderscore_cons_of_ne_nil (a : String) (l : List String) (h : l ≠ []) :
    joinUnderscore (a :: l) = a ++ "_" ++ joinUnderscore l := by
  cases l with
  | nil => exact absurd rfl h
  | cons b t => rfl

theorem string_ext {a b : String} (h : a.data = b.data) : a = b := by
  cases a; cases b; exact congrArg String.mk h

theorem string_mk_append (l₁ l₂ : List Char) :
    String.mk l₁ ++ String.mk l₂ = String.mk (l₁ ++ l₂) := by
  apply string_ext
  simp [String.data_append]

theorem joinUnderscore_splitUnderscoreAux (l acc : List Char) :
    joinUnderscore ((splitUnderscoreAux l acc).map String.mk)
      = String.mk (acc.reverse ++ l) := by
  induction l generalizing acc with
  | nil => simp [splitUnderscoreAux, joinUnderscore]
  | cons c rest ih =>
    by_cases h : c = '_'
    · have hne : (splitUnderscoreAux rest []).map String.mk ≠ [] := by
        simp [splitUnderscoreAux_ne_nil]
      rw [splitUnderscoreAux, if_pos h, List.map_cons,
        joinUnderscore_cons_of_ne_nil _ _ hne, ih]
      subst h
      have : ("_" : String) = String.mk ['_'] := rfl
      rw [this, string_mk_append, string_mk_append]
      simp
    · rw [splitUnderscoreAux, if_neg h, ih]
      simp

/-- Splitting and then rejoining on underscores restores the string. -/
theorem joinUnderscore_splitUnderscore (s : String) :
    joinUnderscore (splitUnderscore s) = s := by
  have := joinUnderscore_splitUnderscoreAux s.data []
  simpa [splitUnderscore] using this

theorem splitUnderscoreAux_length (l acc : List Char) :
    (splitUnderscoreAux l acc).length = l.count '_' + 1 := by
  induction l generalizing acc with
  | nil => simp [splitUnderscoreAux]
  | cons c rest ih =>
    by_cases h : c = '_'
    · subst h
      simp [splitUnderscoreAux, ih, List.count_cons]
    · rw [splitUnderscoreAux, if_neg h, ih]
      simp [List.count_cons, h]

/-- The number of underscore-separated segments is the underscore count
plus one. -/
theorem splitUnderscore_length (s : String) :
    (splitUnderscore s).length = s.data.count '_' + 1 := by
  simp [splitUnderscore, splitUnderscoreAux_length]

/-! ## `add_timestamp.py`: the timestamp renamer -/

/-- Digit-pair helpers used to validate timestamp components. -/
def twoDigitVal (a b : Char) : Nat :=
  (a.toNat - 48) * 10 + (b.toNat - 48)

/-- `TimestampProcessor.format_timestamp` (`add_timestamp.py` lines 69-86):
parse a `"YYYY:MM:DD HH:MM:SS"` string (Python
`datetime.strptime(date_str, '%Y:%m:%d %H:%M:%S')`) and reformat it as the
14-digit `"YYYYMMDDHHMMSS"` (`strftime('%Y%m%d%H%M%S')`); `none` models the
`ValueError` branch (and the falsy `if date_str` guard).  `strptime`'s full
calendar validation is abbreviated to per-field range checks. -/
def formatTimestamp (dateStr : String) : Option String :=
  match dateStr.data with
  | [y1, y2, y3, y4, c1, mo1, mo2, c2, d1, d2, c3, h1, h2, c4, mi1, mi2, c5, s1, s2] =>
    if c1 = ':' ∧ c2 = ':' ∧ c3 = ' ' ∧ c4 = ':' ∧ c5 = ':'
        ∧ [y1, y2, y3, y4, mo1, mo2, d1, d2, h1, h2, mi1, mi2, s1, s2].all Char.isDigit
        ∧ 1 ≤ twoDigitVal mo1 mo2 ∧ twoDigitVal mo1 mo2 ≤ 12
        ∧ 1 ≤ twoDigitVal d1 d2 ∧ twoDigitVal d1 d2 ≤ 31
        ∧ twoDigitVal h1 h2 ≤ 23 ∧ twoDigitVal mi1 mi2 ≤ 59 ∧ twoDigitVal s1 s2 ≤ 59 then
      some (String.mk [y1, y2, y3, y4, mo1, mo2, d1, d2, h1, h2, mi1, mi2, s1, s2])
    else none
  | _ => none

/-- `TimestampProcessor.construct_new_filename` (`add_timestamp.py` lines
88-110): split the stem on underscores; with at least 3 segments the new
stem is `f"{parts[0]}_{timestamp}_{'_'.join(parts[1:])}"`; otherwise the
function returns `None`. -/
def constructNewFilename (p : ImagePath) (timestamp : String) : Option ImagePath :=
  let parts := splitUnderscore p.stem
  if 3 ≤ parts.length then
    some ⟨parts.headD "" ++ "_" ++ timestamp ++ "_" ++ joinUnderscore parts.tail, p.suffix⟩
  else none

/-- Outcome of `TimestampProcessor.process_single_image`. -/
inductive RenameOutcome where
  | renamed
  | skippedNoDate
  | skippedBadTimestamp
  | skippedUnchanged
deriving DecidableEq, Repr

/-- `TimestampProcessor.process_single_image` (`add_timestamp.py` lines
112-162), with the EXIF `DateTimeOriginal` tag value passed in as data
(`get_exif_date` is file I/O).  Returns the outcome together with the
file's resulting path (`image_path.rename(new_path)` on success). -/
def processSingleImage (p : ImagePath) (dateStr : Option String) :
    RenameOutcome × ImagePath :=
  match dateStr with
  | none => (.skippedNoDate, p)
  | some d =>
    match formatTimestamp d with
    | none => (.skippedBadTimestamp, p)
    | some ts =>
      match constructNewFilename p ts with
      | none => (.skippedUnchanged, p)
      | some newPath =>
        if newPath = p then (.skippedUnchanged, p) else (.renamed, newPath)

/-- The path a file carries after one run of `process_single_image`. -/
def applyOnce (p : ImagePath) (dateStr : Option String) : ImagePath :=
  (processSingleImage p dateStr).2

theorem splitUnderscore_exists_cons₃ (s : String)
    (h : 3 ≤ (splitUnderscore s).length) :
    ∃ a b c t, splitUnderscore s = a :: b :: c :: t := by
  match hs : splitUnderscore s with
  | [] => rw [hs] at h; simp at h
  | [a] => rw [hs] at h; simp at h
  | [a, b] => rw [hs] at h; simp at h
  | a :: b :: c :: t => exact ⟨a, b, c, t, rfl⟩

theorem underscore_length : ("_" : String).length = 1 := rfl

theorem underscore_data_count : (("_" : String).data).count '_' = 1 := by decide

/-- Core fact about one application of `construct_new_filename`: with at
least 3 segments it always succeeds, the new stem is strictly longer than
the old one by `timestamp.length + 1`, and the new stem again has at least
3 segments. -/
theorem constructNewFilename_spec (p : ImagePath) (ts : String)
    (h : 3 ≤ (splitUnderscore p.stem).length) :
    ∃ q, constructNewFilename p ts = some q
      ∧ q.suffix = p.suffix
      ∧ q.stem.length = p.stem.length + ts.length + 1
      ∧ 3 ≤ (splitUnderscore q.stem).length := by
  obtain ⟨a, b, c, t, hsplit⟩ := splitUnderscore_exists_cons₃ p.stem h
  have hstem : p.stem = joinUnderscore (a :: b :: c :: t) := by
    rw [← hsplit, joinUnderscore_splitUnderscore]
  refine ⟨⟨a ++ "_" ++ ts ++ "_" ++ joinUnderscore (b :: c :: t), p.suffix⟩, ?_, rfl, ?_, ?_⟩
  · rw [constructNewFilename, hsplit]
    simp
  · show (a ++ "_" ++ ts ++ "_" ++ joinUnderscore (b :: c :: t)).length
      = p.stem.length + ts.length + 1
    have hj : joinUnderscore (a :: b :: c :: t)
        = a ++ "_" ++ joinUnderscore (b :: c :: t) := rfl
    rw [hstem, hj]
    simp [String.length_append, underscore_length]
    omega
  · rw [splitUnderscore_length]
    show 3 ≤ ((a ++ "_" ++ ts ++ "_" ++ joinUnderscore (b :: c :: t)).data).count '_' + 1
    simp [String.data_append, underscore_data_count]
    omega

/-- One application of `process_single_image` with a well-formed timestamp
and at least 3 stem segments always renames (the guard `new_path ==
image_path` can never fire, because the new stem is strictly longer), and
the resulting stem again has at least 3 segments. -/
theorem processSingleImage_renames (p : ImagePath) (d ts : String)
    (hts : formatTimestamp d = some ts)
    (hseg : 3 ≤ (splitUnderscore p.stem).length) :
    (processSingleImage p (some d)).1 = RenameOutcome.renamed
      ∧ applyOnce p (some d) ≠ p
      ∧ (applyOnce p (some d)).stem.length = p.stem.length + ts.length + 1
      ∧ 3 ≤ (splitUnderscore (applyOnce p (some d)).stem).length := by
  obtain ⟨q, hq, hsuf, hlen, hseg'⟩ := constructNewFilename_spec p ts hseg
  have hqp : q ≠ p := by
    intro heq
    rw [heq] at hlen
    omega
  have hrun : processSingleImage p (some d) = (RenameOutcome.renamed, q) := by
    simp only [processSingleImage, hts, hq, if_neg hqp]
  have happ : applyOnce p (some d) = q := by rw [applyOnce, hrun]
  refine ⟨by rw [hrun], ?_, ?_, ?_⟩
  · rw [happ]; exact hqp
  · rw [happ]; exact hlen
  · rw [happ]; exact hseg'

/-- C3 counterexample: on `DJI_0001_001.JPG` with capture timestamp
`2025:02:01 14:30:22`, the first rename yields
`DJI_20250201143022_0001_001.JPG`, but a second application is again a
rename (not a skip) and yields the different name
`DJI_20250201143022_20250201143022_0001_001.JPG` — the timestamp is
inserted a second time, so the operation is not idempotent and the second
run is not a no-op. -/
theorem rename_not_idempotent_counterexample :
    applyOnce (⟨"DJI_0001_001", ".JPG"⟩ : ImagePath) (some "2025:02:01 14:30:22")
        = ⟨"DJI_20250201143022_0001_001", ".JPG"⟩
      ∧ (processSingleImage (⟨"DJI_20250201143022_0001_001", ".JPG"⟩ : ImagePath)
          (some "2025:02:01 14:30:22")).1 = RenameOutcome.renamed
      ∧ applyOnce (⟨"DJI_20250201143022_0001_001", ".JPG"⟩ : ImagePath)
          (some "2025:02:01 14:30:22")
        = ⟨"DJI_20250201143022_20250201143022_0001_001", ".JPG"⟩
      ∧ decide ((⟨"DJI_20250201143022_20250201143022_0001_001", ".JPG"⟩ : ImagePath)
          = ⟨"DJI_20250201143022_0001_001", ".JPG"⟩) = false := by
  refine ⟨by decide, by decide, by decide, by decide⟩

/-- C3 (amended): for every image with a present, well-formed capture
timestamp and at least 3 underscore-delimited stem segments, the rename
operation is NOT idempotent: the first application renames, and the second
application renames AGAIN — the computed new name strictly lengthens the
stem, so it never equals the current name and the `new_path == image_path`
skip guard cannot fire — producing a different filename with the timestamp
inserted twice. -/
theorem rename_second_application_renames_again (p : ImagePath) (d ts : String)
    (hts : formatTimestamp d = some ts)
    (hseg : 3 ≤ (splitUnderscore p.stem).length) :
    (processSingleImage p (some d)).1 = RenameOutcome.renamed
      ∧ applyOnce p (some d) ≠ p
      ∧ (processSingleImage (applyOnce p (some d)) (some d)).1 = RenameOutcome.renamed
      ∧ applyOnce (applyOnce p (some d)) (some d) ≠ applyOnce p (some d) := by
  obtain ⟨h1, h2, _, hseg'⟩ := processSingleImage_renames p d ts hts hseg
  obtain ⟨h3, h4, _, _⟩ := processSingleImage_renames (applyOnce p (some d)) d ts hts hseg'
  exact ⟨h1, h2, h3, h4⟩

/-- Witness for `rename_second_application_renames_again` at the concrete
input `DJI_0001_001.JPG`, timestamp tag `2025:02:01 14:30:22`. -/
theorem rename_second_application_renames_again_witness :
    (processSingleImage (⟨"DJI_0001_001", ".JPG"⟩ : ImagePath)
        (some "2025:02:01 14:30:22")).1 = RenameOutcome.renamed
      ∧ applyOnce (⟨"DJI_0001_001", ".JPG"⟩ : ImagePath) (some "2025:02:01 14:30:22")
          ≠ (⟨"DJI_0001_001", ".JPG"⟩ : ImagePath)
      ∧ (processSingleImage
          (applyOnce (⟨"DJI_0001_001", ".JPG"⟩ : ImagePath) (some "2025:02:01 14:30:22"))
          (some "2025:02:01 14:30:22")).1 = RenameOutcome.renamed
      ∧ applyOnce
          (applyOnce (⟨"DJI_0001_001", ".JPG"⟩ : ImagePath) (some "2025:02:01 14:30:22"))
          (some "2025:02:01 14:30:22")
        ≠ applyOnce (⟨"DJI_0001_001", ".JPG"⟩ : ImagePath) (some "2025:02:01 14:30:22") :=
  rename_second_application_renames_again
    ⟨"DJI_0001_001", ".JPG"⟩ "2025:02:01 14:30:22" "20250201143022"
    (by decide) (by decide)

/-! ## `extract_metadata.py`: the metadata extractor -/

/-- An XMP tag mapping as returned by `pyexiv2`'s `read_xmp()`: key/value
pairs of strings.  `xmpGet` below is `dict.get(key, '')`. -/
abbrev XmpData := List (String × String)

/-- Python `xmp_data.get(key, '')`. -/
def xmpGet (xmp : XmpData) (key : String) : String :=
  match xmp.find? (fun e => e.1 == key) with
  | some e => e.2
  | none => ""

/-- Python `s.lstrip('+')`: drop every leading `'+'`. -/
def lstripPlus (s : String) : String :=
  String.mk (s.data.dropWhile (fun c => c == '+'))

/-- The whitespace set stripped by Python's `str.strip()`. -/
def isPySpace (c : Char) : Bool :=
  c == ' ' || c == '\t' || c == '\n' || c == '\r' || c == '\x0b' || c == '\x0c'

/-- Python `value.strip()`. -/
def pyStrip (s : String) : String :=
  String.mk (((s.data.dropWhile isPySpace).reverse.dropWhile isPySpace).reverse)

/-- Value of a digit string, most significant first. -/
def digitsToNat (l : List Char) : Nat :=
  l.foldl (fun n c => n * 10 + (c.toNat - 48)) 0

/-- Python's `float(value)` on plain decimal literals (optional sign,
integer digits, optional fractional part), modelled exactly over the
rationals; `none` models the `ValueError` raised on any other input.
(Exponent notation and the non-finite literals, which the repository's
tag values never use, are conservatively mapped to `none`.) -/
def parseDecimal (s : String) : Option ℚ :=
  let signAndRest : ℚ × List Char :=
    match s.data with
    | '-' :: r => (-1, r)
    | '+' :: r => (1, r)
    | r => (1, r)
  let sign := signAndRest.1
  let rest := signAndRest.2
  let intPart := rest.takeWhile (fun c => c.isDigit)
  let rest2 := rest.drop intPart.length
  match rest2 with
  | [] =>
    if intPart.isEmpty then none
    else some (sign * (digitsToNat intPart : ℚ))
  | '.' :: fracRest =>
    let fracPart := fracRest.takeWhile (fun c => c.isDigit)
    if !(fracRest.drop fracPart.length).isEmpty then none
    else if intPart.isEmpty && fracPart.isEmpty then none
    else some (sign * ((digitsToNat intPart : ℚ)
      + (digitsToNat fracPart : ℚ) / (10 : ℚ) ^ fracPart.length))
  | _ => none

/-- Lower bound of the coordinate validity range: -90 for latitudes,
-180 for longitudes. -/
def coordLowerBound (isLatitude : Bool) : ℚ :=
  if isLatitude then -90 else -180

/-- Upper bound of the coordinate validity range: 90 for latitudes,
180 for longitudes. -/
def coordUpperBound (isLatitude : Bool) : ℚ :=
  if isLatitude then 90 else 180

/-- The range test `valid_range[0] <= coord <= valid_range[1]`. -/
def coordInRange (isLatitude : Bool) (q : ℚ) : Bool :=
  decide (coordLowerBound isLatitude ≤ q ∧ q ≤ coordUpperBound isLatitude)

/-- Python's `str(coord)` on the parsed number, abstracted to Lean's
rational rendering. -/
def renderRat (q : ℚ) : String := toString q

/-- `MetadataProcessor._process_coordinate` (`extract_metadata.py` lines
76-103): strip the value; empty, unparsable, or out-of-range inputs all
yield `''` (never an exception); an in-range parse yields `str(coord)`. -/
def processCoordinate (value : String) (isLatitude : Bool) : String :=
  let v := pyStrip value
  if v = "" then ""
  else
    match parseDecimal v with
    | none => ""
    | some coord =>
      if coordInRange isLatitude coord then renderRat coord else ""

/-- A metadata dictionary value: the string fields, or the numeric
accuracy constants (Python stores `0.03`/`2`/`0.06`/`10` unconverted). -/
inductive FieldVal where
  | str (s : String)
  | num (q : ℚ)
deriving DecidableEq, Repr

/-- Python `value == ''` on a metadata value: a number never equals
the empty string. -/
def FieldVal.isEmptyStr : FieldVal → Bool
  | .str s => s == ""
  | .num _ => false

/-- Python `str(value)` when writing a table cell. -/
def FieldVal.render : FieldVal → String
  | .str s => s
  | .num q => renderRat q

/-- One extracted record: the metadata dictionary, in insertion order. -/
abbrev MetaRecord := List (String × FieldVal)

/-- The fixed 9-column schema (`self.fieldnames`,
`extract_metadata.py` lines 48-52). -/
def fieldnames : List String :=
  ["照片名称", "纬度", "经度", "高度", "Yaw", "Pitch", "Roll", "水平精度", "垂直精度"]

/-- The metadata dictionary literal built by
`MetadataProcessor.extract_metadata` (`extract_metadata.py` lines
130-151) from the XMP tag mapping of one image whose file name is
`name`. -/
def extractFields (name : String) (xmp : XmpData) : MetaRecord :=
  let rtkStdLat := xmpGet xmp "Xmp.drone-dji.RtkStdLat"
  let horizontalAccuracy : ℚ := if rtkStdLat = "" then 2 else 3 / 100
  let verticalAccuracy : ℚ := if rtkStdLat = "" then 10 else 3 / 50
  let latitude := processCoordinate (xmpGet xmp "Xmp.drone-dji.GpsLatitude") true
  let longitude := processCoordinate (xmpGet xmp "Xmp.drone-dji.GpsLongitude") false
  [("照片名称", .str name),
   ("纬度", .str latitude),
   ("经度", .str longitude),
   ("高度", .str (lstripPlus (xmpGet xmp "Xmp.drone-dji.AbsoluteAltitude"))),
   ("Yaw", .str (lstripPlus (xmpGet xmp "Xmp.drone-dji.GimbalYawDegree"))),
   ("Pitch", .str (lstripPlus (xmpGet xmp "Xmp.drone-dji.GimbalPitchDegree"))),
   ("Roll", .str (lstripPlus (xmpGet xmp "Xmp.drone-dji.GimbalRollDegree"))),
   ("水平精度", .num horizontalAccuracy),
   ("垂直精度", .num verticalAccuracy)]

/-- `MetadataProcessor.extract_metadata` (`extract_metadata.py` lines
105-168).  The `pyexiv2` read of the staged copy is passed in as data
(`Except.error` models the caught exception branch, which returns `None`).
On a successful read the metadata dictionary is built and returned unless
every field other than `照片名称` equals `''`
(`all(value == '' for key, value in metadata.items() if key != '照片名称')`),
in which case `None` is returned. -/
def extractMetadata (p : ImagePath) (readResult : Except String XmpData) :
    Option MetaRecord :=
  match readResult with
  | .error _ => none
  | .ok xmp =>
    let metadata := extractFields (ImagePath.fileName p) xmp
    if (metadata.filter (fun e => e.1 != "照片名称")).all (fun e => e.2.isEmptyStr) then
      none
    else
      some metadata

/-- Whether the `pyexiv2` read of an image succeeded. -/
def readSucceeded : Except String XmpData → Bool
  | .ok _ => true
  | .error _ => false

/-- The per-folder record collection loop of
`MetadataProcessor.process_folder` (`extract_metadata.py` lines 247-253):
extract each image's metadata and keep the non-`None` results, in order. -/
def processFolder (imgs : List (ImagePath × Except String XmpData)) :
    List MetaRecord :=
  imgs.filterMap (fun pr => extractMetadata pr.1 pr.2)

/-- Python `row[field]` on the metadata dictionary: `none` models the
`KeyError`. -/
def lookupField (row : MetaRecord) (field : String) : Option FieldVal :=
  (row.find? (fun e => e.1 == field)).map (fun e => e.2)

/-- Python `','.join(cells)`. -/
def joinComma : List String → String
  | [] => ""
  | [a] => a
  | a :: b :: rest => a ++ "," ++ joinComma (b :: rest)

/-- One data line of `MetadataProcessor.save_to_txt`
(`extract_metadata.py` line 195):
`','.join(str(row[field]) for field in self.fieldnames)`; `none` models a
`KeyError` on a missing column. -/
def rowLine (row : MetaRecord) : Option String :=
  (fieldnames.mapM (fun f => lookupField row f)).map
    (fun vs => joinComma (vs.map FieldVal.render))

/-- The rows actually written by `save_to_txt` (`extract_metadata.py`
lines 193-196): one line per truthy (non-empty) record. -/
def savedRows (data : List MetaRecord) : List MetaRecord :=
  data.filter (fun row => !row.isEmpty)

/-- On a successful read, `extract_metadata` always returns the metadata
dictionary: the guard `all(value == '' ...)` can never hold, because the
two accuracy fields are numeric constants and never equal `''`. -/
theorem extractMetadata_ok_eq (p : ImagePath) (xmp : XmpData) :
    extractMetadata p (Except.ok xmp)
      = some (extractFields (ImagePath.fileName p) xmp) := by
  simp [extractMetadata, extractFields, FieldVal.isEmptyStr]

/-- C7 (confirmed): for every latitude/longitude string value, coordinate
normalization returns (the rendering of) the parsed value exactly when the
parse succeeds and the value lies in `[-90, 90]` (latitude) resp.
`[-180, 180]` (longitude), and returns the empty string for every
out-of-range or unparsable input; the function is total, so it never
raises. -/
theorem processCoordinate_range_validated (value : String) (isLatitude : Bool) :
    (∃ q, parseDecimal (pyStrip value) = some q
        ∧ coordInRange isLatitude q = true
        ∧ processCoordinate value isLatitude = renderRat q)
    ∨ ((parseDecimal (pyStrip value) = none
          ∨ ∃ q, parseDecimal (pyStrip value) = some q
              ∧ coordInRange isLatitude q = false)
        ∧ processCoordinate value isLatitude = "") := by
  by_cases hv : pyStrip value = ""
  · right
    constructor
    · left
      rw [hv]
      rfl
    · simp [processCoordinate, hv]
  · cases hp : parseDecimal (pyStrip value) with
    | none =>
      right
      exact ⟨Or.inl rfl, by simp [processCoordinate, hv, hp]⟩
    | some q =>
      cases hr : coordInRange isLatitude q with
      | true =>
        left
        exact ⟨q, rfl, hr, by simp [processCoordinate, hv, hp, hr]⟩
      | false =>
        right
        exact ⟨Or.inr ⟨q, rfl, hr⟩, by simp [processCoordinate, hv, hp, hr]⟩

/-- The accuracy fields of a record, as a function of the RTK
standard-deviation tag (shared helper). -/
theorem accuracy_fields_of_rtk (name : String) (xmp : XmpData) :
    (xmpGet xmp "Xmp.drone-dji.RtkStdLat" ≠ "" →
        lookupField (extractFields name xmp) "水平精度"
            = some (FieldVal.num (3 / 100))
          ∧ lookupField (extractFields name xmp) "垂直精度"
            = some (FieldVal.num (3 / 50)))
      ∧ (xmpGet xmp "Xmp.drone-dji.RtkStdLat" = "" →
        lookupField (extractFields name xmp) "水平精度"
            = some (FieldVal.num 2)
          ∧ lookupField (extractFields name xmp) "垂直精度"
            = some (FieldVal.num 10)) := by
  constructor
  · intro h
    constructor <;> simp [extractFields, lookupField, h]
  · intro h
    constructor <;> simp [extractFields, lookupField, h]

/-- C8 (confirmed): in every extracted record, if the vendor
`Xmp.drone-dji.RtkStdLat` tag is present with a non-empty value then the
horizontal/vertical accuracy fields are `0.03`/`0.06`; otherwise they are
`2`/`10`. -/
theorem rtk_accuracy_constants (name : String) (xmp : XmpData) :
    (xmpGet xmp "Xmp.drone-dji.RtkStdLat" ≠ "" →
        lookupField (extractFields name xmp) "水平精度"
            = some (FieldVal.num (3 / 100))
          ∧ lookupField (extractFields name xmp) "垂直精度"
            = some (FieldVal.num (3 / 50)))
      ∧ (xmpGet xmp "Xmp.drone-dji.RtkStdLat" = "" →
        lookupField (extractFields name xmp) "水平精度"
            = some (FieldVal.num 2)
          ∧ lookupField (extractFields name xmp) "垂直精度"
            = some (FieldVal.num 10)) :=
  accuracy_fields_of_rtk name xmp

/-- Witness for `rtk_accuracy_constants`: an image with a non-empty RTK
standard-deviation tag gets accuracies 0.03/0.06, one without gets 2/10. -/
theorem rtk_accuracy_constants_witness :
    (lookupField (extractFields "A.jpg" [("Xmp.drone-dji.RtkStdLat", "0.01")]) "水平精度"
          = some (FieldVal.num (3 / 100))
        ∧ lookupField (extractFields "A.jpg" [("Xmp.drone-dji.RtkStdLat", "0.01")]) "垂直精度"
          = some (FieldVal.num (3 / 50)))
      ∧ (lookupField (extractFields "B.jpg" []) "水平精度" = some (FieldVal.num 2)
        ∧ lookupField (extractFields "B.jpg" []) "垂直精度" = some (FieldVal.num 10)) :=
  ⟨(rtk_accuracy_constants "A.jpg" [("Xmp.drone-dji.RtkStdLat", "0.01")]).1 (by decide),
   (rtk_accuracy_constants "B.jpg" []).2 (by decide)⟩

/-- C4 counterexample: an image whose XMP mapping contains no matching tag
at all (every field other than the photo name is the empty string, and the
string fields number six) still yields a record — the accuracy constants
are numeric and never `''`, so the `all(value == '')` guard cannot fire —
and that image appears as a row in the written table. -/
theorem extract_no_tags_still_row_counterexample :
    (extractMetadata ⟨"A", ".jpg"⟩ (Except.ok [])).isSome = true
      ∧ ((extractFields "A.jpg" []).filter
          (fun e => e.2.isEmptyStr)).length = 6
      ∧ (savedRows (processFolder [(⟨"A", ".jpg"⟩, Except.ok [])])).length = 1 := by
  refine ⟨by decide, by decide, by decide⟩

/-- Every record built by `extract_metadata` is a non-empty list (it has
the nine fixed fields), so `save_to_txt`'s `if row:` test keeps it. -/
theorem extractFields_not_isEmpty (name : String) (xmp : XmpData) :
    (extractFields name xmp).isEmpty = false := rfl

/-- C4 (amended): extraction returns `None` exactly when the metadata read
fails; whenever the read succeeds a record is produced — the
all-fields-empty guard never fires, because the two accuracy fields are
always non-empty numeric constants — so images yielding no matching tags
DO appear as rows, and the table's row count equals the number of source
images whose read succeeded. -/
theorem extraction_rowcount (imgs : List (ImagePath × Except String XmpData)) :
    (∀ (p : ImagePath) (xmp : XmpData),
        (extractMetadata p (Except.ok xmp)).isSome = true)
      ∧ (savedRows (processFolder imgs)).length
          = (imgs.filter (fun pr => readSucceeded pr.2)).length := by
  constructor
  · intro p xmp
    rw [extractMetadata_ok_eq]
    rfl
  · induction imgs with
    | nil => rfl
    | cons pr rest ih =>
      obtain ⟨p, rr⟩ := pr
      cases rr with
      | error e =>
        have h1 : extractMetadata p (Except.error e) = none := rfl
        simp only [processFolder, List.filterMap_cons, h1, savedRows,
          List.filter_cons, readSucceeded, Bool.false_eq_true, if_false]
        exact ih
      | ok xmp =>
        have h1 := extractMetadata_ok_eq p xmp
        simp only [processFolder, List.filterMap_cons, h1, savedRows,
          List.filter_cons, readSucceeded, extractFields_not_isEmpty,
          Bool.not_false, if_true, List.length_cons]
        simpa [processFolder, savedRows] using ih

/-- C10 counterexample: for the source file `A.jpg` (base name `A`, i.e.
the name stripped of directory and extension), the record's photo-name
field is the full file name `A.jpg`, not the base name `A`. -/
theorem photo_name_full_name_counterexample :
    extractMetadata ⟨"A", ".jpg"⟩
        (Except.ok [("Xmp.drone-dji.GimbalYawDegree", "+5.0")])
      = some (extractFields "A.jpg" [("Xmp.drone-dji.GimbalYawDegree", "+5.0")])
      ∧ lookupField
          (extractFields "A.jpg" [("Xmp.drone-dji.GimbalYawDegree", "+5.0")])
          "照片名称"
        = some (FieldVal.str "A.jpg")
      ∧ decide (FieldVal.str "A.jpg" = FieldVal.str "A") = false := by
  refine ⟨by decide, by decide, by decide⟩

/-- C10 (amended): every record returned by metadata extraction maps
exactly the nine fixed field names in order; the photo-name field equals
the source file's FULL file name (stem plus extension — not the
extension-less base name); the two accuracy fields are always one of the
non-empty numeric constants (0.03 or 2, resp. 0.06 or 10); consequently
table serialization's per-field lookup over the nine columns is total for
every record. -/
theorem record_schema_and_serialization_total (p : ImagePath) (xmp : XmpData)
    (r : MetaRecord) (h : extractMetadata p (Except.ok xmp) = some r) :
    r.map Prod.fst = fieldnames
      ∧ lookupField r "照片名称" = some (FieldVal.str (ImagePath.fileName p))
      ∧ (lookupField r "水平精度" = some (FieldVal.num (3 / 100))
          ∨ lookupField r "水平精度" = some (FieldVal.num 2))
      ∧ (lookupField r "垂直精度" = some (FieldVal.num (3 / 50))
          ∨ lookupField r "垂直精度" = some (FieldVal.num 10))
      ∧ (rowLine r).isSome = true := by
  rw [extractMetadata_ok_eq] at h
  obtain rfl : r = extractFields (ImagePath.fileName p) xmp := (Option.some_inj.mp h).symm
  refine ⟨rfl, rfl, ?_, ?_, rfl⟩
  · by_cases hrtk : xmpGet xmp "Xmp.drone-dji.RtkStdLat" = ""
    · right
      exact ((accuracy_fields_of_rtk (ImagePath.fileName p) xmp).2 hrtk).1
    · left
      exact ((accuracy_fields_of_rtk (ImagePath.fileName p) xmp).1 hrtk).1
  · by_cases hrtk : xmpGet xmp "Xmp.drone-dji.RtkStdLat" = ""
    · right
      exact ((accuracy_fields_of_rtk (ImagePath.fileName p) xmp).2 hrtk).2
    · left
      exact ((accuracy_fields_of_rtk (ImagePath.fileName p) xmp).1 hrtk).2

/-- Witness for `record_schema_and_serialization_total` at the concrete
image `A.jpg` with a single gimbal-yaw tag. -/
theorem record_schema_and_serialization_total_witness :
    (extractFields "A.jpg" [("Xmp.drone-dji.GimbalYawDegree", "+5.0")]).map Prod.fst
        = fieldnames
      ∧ lookupField (extractFields "A.jpg" [("Xmp.drone-dji.GimbalYawDegree", "+5.0")])
          "照片名称"
        = some (FieldVal.str (ImagePath.fileName ⟨"A", ".jpg"⟩))
      ∧ (lookupField (extractFields "A.jpg" [("Xmp.drone-dji.GimbalYawDegree", "+5.0")])
            "水平精度" = some (FieldVal.num (3 / 100))
          ∨ lookupField (extractFields "A.jpg" [("Xmp.drone-dji.GimbalYawDegree", "+5.0")])
            "水平精度" = some (FieldVal.num 2))
      ∧ (lookupField (extractFields "A.jpg" [("Xmp.drone-dji.GimbalYawDegree", "+5.0")])
            "垂直精度" = some (FieldVal.num (3 / 50))
          ∨ lookupField (extractFields "A.jpg" [("Xmp.drone-dji.GimbalYawDegree", "+5.0")])
            "垂直精度" = some (FieldVal.num 10))
      ∧ (rowLine (extractFields "A.jpg" [("Xmp.drone-dji.GimbalYawDegree", "+5.0")])).isSome
        = true :=
  record_schema_and_serialization_total ⟨"A", ".jpg"⟩
    [("Xmp.drone-dji.GimbalYawDegree", "+5.0")]
    (extractFields "A.jpg" [("Xmp.drone-dji.GimbalYawDegree", "+5.0")])
    (by decide)

/-! ## `jpg2tiff.py`: the radiometric converter -/

/-- `numpy.fromfile(raw_path, dtype='int16')` followed by
`reshape(height, width) / 10` (`jpg2tiff.py` lines 130-131): the raw
buffer must hold exactly `width × height` samples (`reshape` raises a
`ValueError` otherwise, modelled as `none`); the frame is row-major with
`height` rows and `width` columns, each sample divided by 10. -/
def processRawFrame (raw : List Int) (width height : Nat) :
    Option (List (List ℚ)) :=
  if raw.length = width * height then
    some ((List.range height).map (fun r =>
      (List.range width).map (fun c =>
        ((raw.getD (r * width + c) 0 : ℤ) : ℚ) / 10)))
  else none

/-- The tag set of an image as handled by `piexif`: the five sub-trees
(`0th`, `Exif`, `GPS`, `Interop`, `1st`) as tag-id/value mappings, plus
the `thumbnail` bytes. -/
structure ExifDict where
  zeroth : List (Nat × String)
  exifIFD : List (Nat × String)
  gps : List (Nat × String)
  interop : List (Nat × String)
  firstIFD : List (Nat × String)
  thumbnail : Option (List Nat)
deriving DecidableEq, Repr

/-- The narrowed tag set built by `_process_raw_image` (`jpg2tiff.py`
lines 135-142): keep only the `GPS` sub-tree and the `thumbnail` from the
original, empty every other sub-tree. -/
def newExifOf (e : ExifDict) : ExifDict :=
  { zeroth := [], exifIFD := [], gps := e.gps,
    interop := [], firstIFD := [], thumbnail := e.thumbnail }

/-- The converted artifact: the temperature frame plus the embedded tag
set (`Image.fromarray(img_data).save(output_path, exif=exif_bytes)`). -/
structure TiffArtifact where
  frame : List (List ℚ)
  exif : ExifDict
deriving DecidableEq, Repr

/-- `ImageProcessor._process_raw_image` (`jpg2tiff.py` lines 125-145),
with the original image's pixel size and tag set passed in as data. -/
def processRawImage (raw : List Int) (width height : Nat) (origExif : ExifDict) :
    Option TiffArtifact :=
  match processRawFrame raw width height with
  | none => none
  | some frame => some { frame := frame, exif := newExifOf origExif }

/-- One file of a folder as the converter sees it: its name parts, the
original image's pixel size, the outcome of the external DJI SDK call
(`none` = non-zero exit), and the original tag set. -/
structure ConvFile where
  stem : String
  ext : String
  width : Nat
  height : Nat
  sdkResult : Option (List Int)
  origExif : ExifDict
deriving DecidableEq, Repr

/-- The full file name of a `ConvFile`. -/
def ConvFile.fileName (f : ConvFile) : String :=
  f.stem ++ f.ext

/-- The two per-file failure modes of the conversion loop: a non-zero SDK
exit (`subprocess.run(..., check=True)` raising `CalledProcessError`) or a
raw-buffer/shape mismatch (`reshape` raising `ValueError`). -/
inductive ConvError where
  | sdkFailure
  | shapeMismatch
deriving DecidableEq, Repr

/-- Whether converting a single file would succeed end-to-end. -/
def convertOutcome (f : ConvFile) : Option TiffArtifact :=
  f.sdkResult.bind (fun raw => processRawImage raw f.width f.height f.origExif)

/-! ### File-system model

A file-system state is a list of existing paths, each path a list of
components.  `shutil.rmtree` removes a directory and everything under
it. -/

abbrev FsPath := List String

abbrev FsState := List FsPath

/-- Whether path `p` is the directory `dir` or lies beneath it. -/
def isUnder (dir p : FsPath) : Bool :=
  decide (p.take dir.length = dir)

/-- `shutil.rmtree(dir)`. -/
def rmtree (s : FsState) (dir : FsPath) : FsState :=
  s.filter (fun p => !(isUnder dir p))

/-- `ImageProcessor._create_directory` (`jpg2tiff.py` lines 74-80):
delete the directory if it exists, then create it. -/
def createDirectory (s : FsState) (parent : FsPath) (dirName : String) :
    FsState × FsPath :=
  let dir := parent ++ [dirName]
  let s1 := if dir ∈ s then rmtree s dir else s
  (dir :: s1, dir)

/-- `shutil.move(src/name, dst/name)`. -/
def moveFile (s : FsState) (src dst : FsPath) (name : String) : FsState :=
  (dst ++ [name]) :: s.filter (fun p => p != src ++ [name])

/-- `str.lower()` on a file name. -/
def toLowerStr (s : String) : String :=
  String.mk (s.data.map Char.toLower)

/-- Python `s.endswith(suffix)`. -/
def endsWithSuffix (s suffix : String) : Bool :=
  decide (s.data.drop (s.data.length - suffix.data.length) = suffix.data)

/-- The extension filter `f.lower().endswith(('.jpg', '.jpeg', '.png'))`
(`jpg2tiff.py` lines 28, 86-87). -/
def hasImageExt (name : String) : Bool :=
  endsWithSuffix (toLowerStr name) ".jpg"
    || endsWithSuffix (toLowerStr name) ".jpeg"
    || endsWithSuffix (toLowerStr name) ".png"

/-- The per-file conversion loop of `_move_files_and_process`
(`jpg2tiff.py` lines 93-103).  There is no exception handler in the loop:
a failing file terminates it immediately.  Returns the new state, the
names attempted in order, and the first error (if any).  On SDK success
the raw dump appears under `temp`; on full success the artifact appears
under `out`. -/
def convertLoop (s : FsState) (out temp : FsPath) :
    List ConvFile → FsState × List String × Option ConvError
  | [] => (s, [], none)
  | f :: rest =>
    match f.sdkResult with
    | none => (s, [f.fileName], some .sdkFailure)
    | some raw =>
      let s1 := (temp ++ [f.stem ++ ".raw"]) :: s
      match processRawImage raw f.width f.height f.origExif with
      | none => (s1, [f.fileName], some .shapeMismatch)
      | some _ =>
        let s2 := (out ++ [f.stem ++ ".tiff"]) :: s1
        let res := convertLoop s2 out temp rest
        (res.1, f.fileName :: res.2.1, res.2.2)

/-- `ImageProcessor._move_files_and_process` (`jpg2tiff.py` lines 82-103):
filter the folder's entries to supported image extensions, move them into
`input`, then run the conversion loop (skipped when no image files). -/
def moveFilesAndProcess (s : FsState) (src input out temp : FsPath)
    (entries : List ConvFile) : FsState × List String × Option ConvError :=
  let imageFiles := entries.filter (fun f => hasImageExt f.fileName)
  let s1 := imageFiles.foldl (fun st f => moveFile st src input f.fileName) s
  if imageFiles.isEmpty then (s1, [], none)
  else convertLoop s1 out temp imageFiles

/-- `ImageProcessor._process_single_folder` (`jpg2tiff.py` lines 59-72):
create the three directory roles, run the body, and in the `finally`
block delete the staging directory if it exists — whether the body
completed or raised (the error, if any, is the third component). -/
def processSingleFolder (s : FsState) (folder : FsPath)
    (entries : List ConvFile) : FsState × List String × Option ConvError :=
  let c1 := createDirectory s folder "input_dir"
  let c2 := createDirectory c1.1 folder "out_dir"
  let c3 := createDirectory c2.1 folder "temp_dir"
  let res := moveFilesAndProcess c3.1 folder c1.2 c2.2 c3.2 entries
  let final := if c3.2 ∈ res.1 then rmtree res.1 c3.2 else res.1
  (final, res.2.1, res.2.2)

/-- `MetadataProcessor.extract_metadata` with its file-system effects
(`extract_metadata.py` lines 119-168): copy the source image into the
process-local staging directory (`shutil.copy2`), read it (outcome passed
in as data), and in the `finally` block unlink the copy if it exists —
regardless of success or failure. -/
def extractMetadataFs (s : FsState) (tempDir : FsPath) (p : ImagePath)
    (readResult : Except String XmpData) : FsState × Option MetaRecord :=
  let tempJpg := tempDir ++ ["temp_" ++ ImagePath.fileName p]
  let s1 := tempJpg :: s
  let r := extractMetadata p readResult
  let s2 := if tempJpg ∈ s1 then s1.filter (fun q => q != tempJpg) else s1
  (s2, r)

/-- C1 (confirmed): for every raw buffer of exactly `width × height`
16-bit signed samples, the radiometric conversion produces a frame with
`height` rows and `width` columns whose value at row `r`, column `c`
equals `raw[r*width + c] / 10`. -/
theorem radiometric_frame_values (raw : List Int) (width height : Nat)
    (h16 : ∀ x ∈ raw, -32768 ≤ x ∧ x < 32768)
    (hlen : raw.length = width * height) :
    ∃ frame, processRawFrame raw width height = some frame
      ∧ frame.length = height
      ∧ (∀ row ∈ frame, row.length = width)
      ∧ ∀ r c, r < height → c < width →
          (frame.getD r []).getD c 0 = ((raw.getD (r * width + c) 0 : ℤ) : ℚ) / 10 := by
  refine ⟨(List.range height).map (fun r =>
      (List.range width).map (fun c =>
        ((raw.getD (r * width + c) 0 : ℤ) : ℚ) / 10)), ?_, ?_, ?_, ?_⟩
  · rw [processRawFrame, if_pos hlen]
  · simp
  · intro row hrow
    simp only [List.mem_map, List.mem_range] at hrow
    obtain ⟨r, _, rfl⟩ := hrow
    simp
  · intro r c hr hc
    have h1 : ((List.range height).map (fun r =>
        (List.range width).map (fun c =>
          ((raw.getD (r * width + c) 0 : ℤ) : ℚ) / 10))).getD r []
        = (List.range width).map (fun c =>
          ((raw.getD (r * width + c) 0 : ℤ) : ℚ) / 10) := by
      rw [List.getD_eq_getElem?_getD, List.getElem?_map, List.getElem?_range hr]
      rfl
    rw [h1]
    rw [List.getD_eq_getElem?_getD, List.getElem?_map, List.getElem?_range hc]
    rfl

/-- Witness for `radiometric_frame_values` on the spec's own example: the
raw buffer `[150, -50, 200, 300]` with width 2, height 2. -/
theorem radiometric_frame_values_witness :
    ∃ frame, processRawFrame [150, -50, 200, 300] 2 2 = some frame
      ∧ frame.length = 2
      ∧ (∀ row ∈ frame, row.length = 2)
      ∧ ∀ r c, r < 2 → c < 2 →
          (frame.getD r []).getD c 0
            = ((([150, -50, 200, 300] : List Int).getD (r * 2 + c) 0 : ℤ) : ℚ) / 10 :=
  radiometric_frame_values [150, -50, 200, 300] 2 2 (by decide) (by decide)

/-- C9 (confirmed): the tag set embedded in every successfully converted
artifact consists of exactly the GPS sub-tree and thumbnail copied from
the original image, with the `0th`, `Exif`, `Interop` and `1st` sub-trees
emptied. -/
theorem output_exif_narrowed (raw : List Int) (width height : Nat)
    (e : ExifDict) (art : TiffArtifact)
    (h : processRawImage raw width height e = some art) :
    art.exif.gps = e.gps ∧ art.exif.thumbnail = e.thumbnail
      ∧ art.exif.zeroth = [] ∧ art.exif.exifIFD = []
      ∧ art.exif.interop = [] ∧ art.exif.firstIFD = [] := by
  rw [processRawImage] at h
  cases hf : processRawFrame raw width height with
  | none => rw [hf] at h; exact absurd h (by simp)
  | some frame =>
    rw [hf] at h
    obtain rfl : ({ frame := frame, exif := newExifOf e } : TiffArtifact) = art :=
      Option.some_inj.mp h
    exact ⟨rfl, rfl, rfl, rfl, rfl, rfl⟩

/-- Witness for `output_exif_narrowed` on a concrete conversion with a
fully populated original tag set. -/
theorem output_exif_narrowed_witness :
    (TiffArtifact.mk [[15, -5], [20, 30]]
        (newExifOf ⟨[(1, "a")], [(2, "b")], [(3, "gps")], [(4, "i")], [(5, "f")], some [9]⟩)).exif.gps
        = (⟨[(1, "a")], [(2, "b")], [(3, "gps")], [(4, "i")], [(5, "f")], some [9]⟩ : ExifDict).gps
      ∧ (TiffArtifact.mk [[15, -5], [20, 30]]
        (newExifOf ⟨[(1, "a")], [(2, "b")], [(3, "gps")], [(4, "i")], [(5, "f")], some [9]⟩)).exif.thumbnail
        = (⟨[(1, "a")], [(2, "b")], [(3, "gps")], [(4, "i")], [(5, "f")], some [9]⟩ : ExifDict).thumbnail
      ∧ (TiffArtifact.mk [[15, -5], [20, 30]]
        (newExifOf ⟨[(1, "a")], [(2, "b")], [(3, "gps")], [(4, "i")], [(5, "f")], some [9]⟩)).exif.zeroth = []
      ∧ (TiffArtifact.mk [[15, -5], [20, 30]]
        (newExifOf ⟨[(1, "a")], [(2, "b")], [(3, "gps")], [(4, "i")], [(5, "f")], some [9]⟩)).exif.exifIFD = []
      ∧ (TiffArtifact.mk [[15, -5], [20, 30]]
        (newExifOf ⟨[(1, "a")], [(2, "b")], [(3, "gps")], [(4, "i")], [(5, "f")], some [9]⟩)).exif.interop = []
      ∧ (TiffArtifact.mk [[15, -5], [20, 30]]
        (newExifOf ⟨[(1, "a")], [(2, "b")], [(3, "gps")], [(4, "i")], [(5, "f")], some [9]⟩)).exif.firstIFD = [] :=
  output_exif_narrowed [150, -50, 200, 300] 2 2
    ⟨[(1, "a")], [(2, "b")], [(3, "gps")], [(4, "i")], [(5, "f")], some [9]⟩
    (TiffArtifact.mk [[15, -5], [20, 30]]
      (newExifOf ⟨[(1, "a")], [(2, "b")], [(3, "gps")], [(4, "i")], [(5, "f")], some [9]⟩))
    (by simp [processRawImage, processRawFrame, List.range_succ]; norm_num)

/-- C2 counterexample: in a folder whose first file fails the SDK call
and whose second file would convert fine, the second file is never
attempted — the loop stops at the failure and no (succeeded, failed)
counts are produced, only the propagating error. -/
theorem conversion_failure_counterexample :
    ((convertLoop [] (["out"] : FsPath) (["temp"] : FsPath)
        [⟨"A", ".jpg", 2, 2, none, ⟨[], [], [], [], [], none⟩⟩,
         ⟨"B", ".jpg", 2, 2, some [150, -50, 200, 300], ⟨[], [], [], [], [], none⟩⟩]).2.1
      = ["A.jpg"])
      ∧ (((convertLoop [] (["out"] : FsPath) (["temp"] : FsPath)
        [⟨"A", ".jpg", 2, 2, none, ⟨[], [], [], [], [], none⟩⟩,
         ⟨"B", ".jpg", 2, 2, some [150, -50, 200, 300], ⟨[], [], [], [], [], none⟩⟩]).2.1).contains
          "B.jpg" = false)
      ∧ (convertLoop [] (["out"] : FsPath) (["temp"] : FsPath)
        [⟨"A", ".jpg", 2, 2, none, ⟨[], [], [], [], [], none⟩⟩,
         ⟨"B", ".jpg", 2, 2, some [150, -50, 200, 300], ⟨[], [], [], [], [], none⟩⟩]).2.2
      = some ConvError.sdkFailure := by
  refine ⟨by decide, by decide, by decide⟩

/-- C2 (amended): a non-zero exit of the raw-unpacking collaborator or a
shape mismatch is NOT caught inside the per-folder conversion loop: the
exception aborts the loop at the first failing file — every file before it
is converted, the files after it are never attempted, and no
`(count_succeeded, count_failed)` result is produced, only the
propagating error. -/
theorem conversion_aborts_at_first_failure (s : FsState) (out temp : FsPath)
    (pre : List ConvFile) (f : ConvFile) (rest : List ConvFile)
    (hpre : ∀ g ∈ pre, (convertOutcome g).isSome = true)
    (hf : (convertOutcome f).isSome = false) :
    (convertLoop s out temp (pre ++ f :: rest)).2.1
        = pre.map ConvFile.fileName ++ [f.fileName]
      ∧ ((convertLoop s out temp (pre ++ f :: rest)).2.2).isSome = true := by
  induction pre generalizing s with
  | nil =>
    simp only [List.nil_append, List.map_nil]
    cases hsdk : f.sdkResult with
    | none => simp [convertLoop, hsdk]
    | some raw =>
      have hnone : processRawImage raw f.width f.height f.origExif = none := by
        rw [convertOutcome, hsdk] at hf
        simp only [Option.some_bind] at hf
        exact Option.not_isSome_iff_eq_none.mp (by simp [hf])
      simp [convertLoop, hsdk, hnone]
  | cons g pre' ih =>
    have hg := hpre g (List.mem_cons_self g pre')
    cases hsdk : g.sdkResult with
    | none =>
      rw [convertOutcome, hsdk] at hg
      simp at hg
    | some raw =>
      cases hart : processRawImage raw g.width g.height g.origExif with
      | none =>
        rw [convertOutcome, hsdk] at hg
        simp only [Option.some_bind, hart] at hg
        simp at hg
      | some art =>
        have ihr := ih (((out ++ [g.stem ++ ".tiff"]) :: (temp ++ [g.stem ++ ".raw"]) :: s))
          (fun x hx => hpre x (List.mem_cons_of_mem g hx))
        simp only [List.cons_append, convertLoop, hsdk, hart, List.map_cons, List.append_eq]
        exact ⟨by rw [ihr.1], ihr.2⟩

/-- Witness for `conversion_aborts_at_first_failure`: one convertible
file, then a file whose SDK call fails, then another convertible file. -/
theorem conversion_aborts_at_first_failure_witness :
    (convertLoop [] (["out"] : FsPath) (["temp"] : FsPath)
        ([⟨"G", ".jpg", 2, 2, some [150, -50, 200, 300], ⟨[], [], [], [], [], none⟩⟩]
          ++ (⟨"A", ".jpg", 2, 2, none, ⟨[], [], [], [], [], none⟩⟩ : ConvFile)
            :: [⟨"B", ".jpg", 2, 2, some [1, 2, 3, 4], ⟨[], [], [], [], [], none⟩⟩])).2.1
        = [(⟨"G", ".jpg", 2, 2, some [150, -50, 200, 300], ⟨[], [], [], [], [], none⟩⟩ : ConvFile)].map
            ConvFile.fileName
          ++ [ConvFile.fileName ⟨"A", ".jpg", 2, 2, none, ⟨[], [], [], [], [], none⟩⟩]
      ∧ ((convertLoop [] (["out"] : FsPath) (["temp"] : FsPath)
        ([⟨"G", ".jpg", 2, 2, some [150, -50, 200, 300], ⟨[], [], [], [], [], none⟩⟩]
          ++ (⟨"A", ".jpg", 2, 2, none, ⟨[], [], [], [], [], none⟩⟩ : ConvFile)
            :: [⟨"B", ".jpg", 2, 2, some [1, 2, 3, 4], ⟨[], [], [], [], [], none⟩⟩])).2.2).isSome
        = true :=
  conversion_aborts_at_first_failure [] ["out"] ["temp"]
    [⟨"G", ".jpg", 2, 2, some [150, -50, 200, 300], ⟨[], [], [], [], [], none⟩⟩]
    ⟨"A", ".jpg", 2, 2, none, ⟨[], [], [], [], [], none⟩⟩
    [⟨"B", ".jpg", 2, 2, some [1, 2, 3, 4], ⟨[], [], [], [], [], none⟩⟩]
    (by intro g hg; rw [List.mem_singleton] at hg; subst hg; rfl)
    rfl

theorem mem_moveFile (st : FsState) (src dst : FsPath) (name : String) (p : FsPath)
    (hp : p ∈ st) (hne : p ≠ src ++ [name]) : p ∈ moveFile st src dst name := by
  rw [moveFile]
  exact List.mem_cons_of_mem _ (List.mem_filter.mpr ⟨hp, by simp [hne]⟩)

theorem mem_moveLoop (files : List ConvFile) (st : FsState) (src dst : FsPath) (p : FsPath)
    (hp : p ∈ st) (hne : ∀ f ∈ files, p ≠ src ++ [f.fileName]) :
    p ∈ files.foldl (fun acc f => moveFile acc src dst f.fileName) st := by
  induction files generalizing st with
  | nil => exact hp
  | cons f rest ih =>
    rw [List.foldl_cons]
    exact ih (moveFile st src dst f.fileName)
      (mem_moveFile st src dst f.fileName p hp (hne f (List.mem_cons_self f rest)))
      (fun g hg => hne g (List.mem_cons_of_mem f hg))

theorem mem_convertLoop (files : List ConvFile) (s : FsState) (out temp : FsPath)
    (p : FsPath) (hp : p ∈ s) : p ∈ (convertLoop s out temp files).1 := by
  induction files generalizing s with
  | nil => exact hp
  | cons f rest ih =>
    cases hsdk : f.sdkResult with
    | none => simp only [convertLoop, hsdk]; exact hp
    | some raw =>
      cases hart : processRawImage raw f.width f.height f.origExif with
      | none =>
        simp only [convertLoop, hsdk, hart]
        exact List.mem_cons_of_mem _ hp
      | some art =>
        simp only [convertLoop, hsdk, hart]
        exact ih _ (List.mem_cons_of_mem _ (List.mem_cons_of_mem _ hp))

theorem mem_moveFilesAndProcess (st : FsState) (src input out temp : FsPath)
    (entries : List ConvFile) (p : FsPath) (hp : p ∈ st)
    (hne : ∀ f ∈ entries.filter (fun f => hasImageExt f.fileName),
      p ≠ src ++ [f.fileName]) :
    p ∈ (moveFilesAndProcess st src input out temp entries).1 := by
  rw [moveFilesAndProcess]
  have h1 : p ∈ (entries.filter (fun f => hasImageExt f.fileName)).foldl
      (fun acc f => moveFile acc src input f.fileName) st :=
    mem_moveLoop _ st src input p hp hne
  by_cases he : (entries.filter (fun f => hasImageExt f.fileName)).isEmpty
  · simp only [he, if_true]
    exact h1
  · simp only [he, if_false]
    exact mem_convertLoop _ _ out temp p h1

theorem rmtree_all (s : FsState) (dir : FsPath) :
    ((rmtree s dir).all (fun p => !(isUnder dir p))) = true := by
  rw [List.all_eq_true]
  intro p hp
  rw [rmtree] at hp
  exact (List.mem_filter.mp hp).2

theorem hasImageExt_temp_dir : hasImageExt "temp_dir" = false := by decide

theorem cleanup_if_all (R : FsState) (dir : FsPath) (h : dir ∈ R) :
    ((if dir ∈ R then rmtree R dir else R).all (fun p => !(isUnder dir p))) = true := by
  rw [if_pos h]
  exact rmtree_all R dir

/-- The staging directory (and everything beneath it) is gone from the
state after `_process_single_folder` returns, whatever the body did. -/
theorem processSingleFolder_temp_all (s : FsState) (folder : FsPath)
    (entries : List ConvFile) :
    ((processSingleFolder s folder entries).1.all
      (fun p => !(isUnder (folder ++ ["temp_dir"]) p))) = true := by
  have hne : ∀ f ∈ entries.filter (fun f => hasImageExt f.fileName),
      folder ++ ["temp_dir"] ≠ folder ++ [f.fileName] := by
    intro f hf heq
    have hext : hasImageExt f.fileName = true := (List.mem_filter.mp hf).2
    have hname : f.fileName = "temp_dir" := by
      have := List.append_cancel_left heq
      simpa using this.symm
    rw [hname, hasImageExt_temp_dir] at hext
    exact Bool.false_ne_true hext
  have hmem : folder ++ ["temp_dir"]
      ∈ (moveFilesAndProcess
          (createDirectory (createDirectory (createDirectory s folder "input_dir").1
            folder "out_dir").1 folder "temp_dir").1
          folder (createDirectory s folder "input_dir").2
          (createDirectory (createDirectory s folder "input_dir").1 folder "out_dir").2
          (folder ++ ["temp_dir"]) entries).1 := by
    apply mem_moveFilesAndProcess
    · exact List.mem_cons_self _ _
    · exact hne
  exact cleanup_if_all
    (moveFilesAndProcess
      (createDirectory (createDirectory (createDirectory s folder "input_dir").1
        folder "out_dir").1 folder "temp_dir").1
      folder (createDirectory s folder "input_dir").2
      (createDirectory (createDirectory s folder "input_dir").1 folder "out_dir").2
      (folder ++ ["temp_dir"]) entries).1
    (folder ++ ["temp_dir"]) hmem

/-- The extractor's process-local duplicate is gone from the state after
`extract_metadata` returns, read success or failure. -/
theorem extractMetadataFs_temp_deleted (s : FsState) (tempDir : FsPath)
    (p : ImagePath) (rr : Except String XmpData) :
    ((extractMetadataFs s tempDir p rr).1.contains
      (tempDir ++ ["temp_" ++ ImagePath.fileName p])) = false := by
  rw [extractMetadataFs]
  simp only [if_pos (List.mem_cons_self _ _)]
  apply Bool.eq_false_iff.mpr
  intro hc
  have hmem : (tempDir ++ ["temp_" ++ ImagePath.fileName p])
      ∈ (List.filter (fun q => q != tempDir ++ ["temp_" ++ ImagePath.fileName p])
        ((tempDir ++ ["temp_" ++ ImagePath.fileName p]) :: s)) := List.elem_iff.mp hc
  have h2 := (List.mem_filter.mp hmem).2
  simp at h2

/-- C6 (confirmed): temporary resources are released unconditionally.
For every starting state, folder and entry list, after
`_process_single_folder` returns, no path equal to or beneath the
folder's staging directory remains — whether the conversion body
completed or raised.  And for every starting state and image, after
`extract_metadata` returns, the process-local duplicate of the source
image is gone — whether the metadata read succeeded or failed. -/
theorem temp_resources_released :
    (∀ (s : FsState) (folder : FsPath) (entries : List ConvFile),
        ((processSingleFolder s folder entries).1.all
          (fun p => !(isUnder (folder ++ ["temp_dir"]) p))) = true)
      ∧ (∀ (s : FsState) (tempDir : FsPath) (p : ImagePath)
          (rr : Except String XmpData),
        ((extractMetadataFs s tempDir p rr).1.contains
          (tempDir ++ ["temp_" ++ ImagePath.fileName p])) = false) :=
  ⟨processSingleFolder_temp_all, extractMetadataFs_temp_deleted⟩

/-! ## `copy_metadata.py`: the file-pair matcher -/

/-- The destination index of `MetadataCopier.find_image_pairs`
(`copy_metadata.py` lines 47-49): the dict comprehension
`{f.stem: f for f in dst_dir.glob('*.tif*')}` keyed by base name, read
back with `.get`.  Enumeration order is preserved, so a later file with
the same stem overwrites an earlier one. -/
def tiffIndex (tiffs : List ImagePath) (s : String) : Option ImagePath :=
  tiffs.foldl (fun acc f => if f.stem = s then some f else acc) none

/-- `MetadataCopier.find_image_pairs` (`copy_metadata.py` lines 28-60):
pair each source JPG with the destination of the same base name; a source
with no match is skipped (with a printed diagnostic) rather than
aborting; an empty source listing short-circuits to `[]`. -/
def findImagePairs (jpgs tiffs : List ImagePath) : List (ImagePath × ImagePath) :=
  if jpgs.isEmpty then []
  else jpgs.filterMap (fun j => (tiffIndex tiffs j.stem).map (fun t => (j, t)))

theorem tiffIndex_stem_aux (l : List ImagePath) (s : String) (acc : Option ImagePath)
    (hacc : ∀ x, acc = some x → x.stem = s) (t : ImagePath)
    (h : l.foldl (fun acc f => if f.stem = s then some f else acc) acc = some t) :
    t.stem = s := by
  induction l generalizing acc with
  | nil => exact hacc t h
  | cons f rest ih =>
    rw [List.foldl_cons] at h
    refine ih _ ?_ h
    intro x hx
    by_cases hf : f.stem = s
    · rw [if_pos hf] at hx
      cases hx
      exact hf
    · rw [if_neg hf] at hx
      exact hacc x hx

/-- The index only ever returns a destination whose stem is the queried
base name. -/
theorem tiffIndex_stem (tiffs : List ImagePath) (s : String) (t : ImagePath)
    (h : tiffIndex tiffs s = some t) : t.stem = s :=
  tiffIndex_stem_aux tiffs s none (by intro x hx; cases hx) t h

/-- The sources of the computed pairs are exactly the sources that have a
matching destination, in order. -/
theorem pairs_map_fst (jpgs : List ImagePath) (g : ImagePath → Option ImagePath) :
    (jpgs.filterMap (fun j => (g j).map (fun t => (j, t)))).map Prod.fst
      = jpgs.filter (fun j => (g j).isSome) := by
  induction jpgs with
  | nil => rfl
  | cons j rest ih =>
    cases hg : g j with
    | none => simp [List.filterMap_cons, hg, List.filter_cons, ih]
    | some t => simp [List.filterMap_cons, hg, List.filter_cons, ih]

/-- C5 (confirmed): for every source and destination listing (the source
listing has no duplicate paths, as a directory enumeration), the matching
result has no two pairs with the same source file; every pair's source and
destination share an identical base name; the destination index holds at
most one destination per base name and a later-enumerated destination
with a duplicate base name overwrites the earlier one (last wins); and a
source with no matching destination is simply omitted from the result —
the computation is total, so the batch never aborts. -/
theorem find_image_pairs_spec (jpgs tiffs : List ImagePath) (hnd : jpgs.Nodup) :
    ((findImagePairs jpgs tiffs).map Prod.fst).Nodup
      ∧ ((findImagePairs jpgs tiffs).all (fun pr => pr.2.stem == pr.1.stem)) = true
      ∧ (∀ (s : String) (t : ImagePath),
          tiffIndex (tiffs ++ [t]) s
            = if t.stem = s then some t else tiffIndex tiffs s)
      ∧ (∀ j ∈ jpgs, tiffIndex tiffs j.stem = none →
          ((findImagePairs jpgs tiffs).all (fun pr => pr.1 != j)) = true) := by
  refine ⟨?_, ?_, ?_, ?_⟩
  · by_cases he : jpgs.isEmpty
    · simp [findImagePairs, he]
    · rw [findImagePairs, if_neg he, pairs_map_fst]
      exact hnd.sublist (List.filter_sublist jpgs)
  · rw [List.all_eq_true]
    intro pr hpr
    rw [findImagePairs] at hpr
    by_cases he : jpgs.isEmpty
    · rw [if_pos he] at hpr
      cases hpr
    · rw [if_neg he] at hpr
      obtain ⟨j, _, hj⟩ := List.mem_filterMap.mp hpr
      cases ht : tiffIndex tiffs j.stem with
      | none => rw [ht] at hj; cases hj
      | some t =>
        rw [ht] at hj
        obtain rfl : (j, t) = pr := Option.some_inj.mp hj
        simpa using tiffIndex_stem tiffs j.stem t ht
  · intro s t
    rw [tiffIndex, List.foldl_append]
    rfl
  · intro j _ hj
    rw [List.all_eq_true]
    intro pr hpr
    rw [findImagePairs] at hpr
    by_cases he : jpgs.isEmpty
    · rw [if_pos he] at hpr
      cases hpr
    · rw [if_neg he] at hpr
      obtain ⟨j', _, hj'⟩ := List.mem_filterMap.mp hpr
      cases ht : tiffIndex tiffs j'.stem with
      | none => rw [ht] at hj'; cases hj'
      | some t =>
        rw [ht] at hj'
        obtain rfl : (j', t) = pr := Option.some_inj.mp hj'
        simp only [bne_iff_ne, ne_eq]
        intro hcontra
        rw [hcontra] at ht
        rw [hj] at ht
        cases ht

/-- Witness for `find_image_pairs_spec`: sources `A.jpg`, `B.jpg`;
destinations `A.tiff` then `A.tif` (duplicate stem, last wins); `B.jpg`
has no match and is omitted. -/
theorem find_image_pairs_spec_witness :
    ((findImagePairs [⟨"A", ".jpg"⟩, ⟨"B", ".jpg"⟩]
        [⟨"A", ".tiff"⟩, ⟨"A", ".tif"⟩]).map Prod.fst).Nodup
      ∧ ((findImagePairs [⟨"A", ".jpg"⟩, ⟨"B", ".jpg"⟩]
          [⟨"A", ".tiff"⟩, ⟨"A", ".tif"⟩]).all
            (fun pr => pr.2.stem == pr.1.stem)) = true
      ∧ tiffIndex ([⟨"A", ".tiff"⟩] ++ [(⟨"A", ".tif"⟩ : ImagePath)]) "A"
          = (if (ImagePath.mk "A" ".tif").stem = "A" then some ⟨"A", ".tif"⟩
              else tiffIndex [⟨"A", ".tiff"⟩] "A")
      ∧ ((findImagePairs [⟨"A", ".jpg"⟩, ⟨"B", ".jpg"⟩]
          [⟨"A", ".tiff"⟩, ⟨"A", ".tif"⟩]).all
            (fun pr => pr.1 != (⟨"B", ".jpg"⟩ : ImagePath))) = true := by
  have h := find_image_pairs_spec [⟨"A", ".jpg"⟩, ⟨"B", ".jpg"⟩]
    [⟨"A", ".tiff"⟩, ⟨"A", ".tif"⟩] (by decide)
  exact ⟨h.1, h.2.1, h.2.2.1 "A" ⟨"A", ".tif"⟩,
    h.2.2.2 ⟨"B", ".jpg"⟩ (by decide) (by decide)⟩
